import Mathlib

set_option maxRecDepth 100000

/-!
# Payload signing and verification: a shallow embedding

A verification development of the OTA payload signing/verification core of
`platform_system_update_engine` (`payload_generator/payload_signer`,
`payload_consumer/payload_verifier`, `payload_generator/payload_file`),
as exercised by `payload_generator/payload_signer_unittest.cc`.

The repository snapshot contains only the unit test for this core; the
implementation files themselves are absent.  All core operations below are
therefore modelled from the specification (doc comments marked
`Modelled from the spec:`), faithful to its words, and the properties of the
test surface are proved against that model.

Bytes are modelled as `Nat` (a byte stream is `List Nat`); the external
RSA capability is an abstract `CryptoBackend` record, since the spec treats
key loading and the RSA transform as an external capability the core calls
into.  The external SHA-256 digest engine is given a concrete FIPS 180-4
implementation so the golden digest vector of the test can be checked.
-/

namespace UpdateEngine

/-- A byte of a payload or signature stream (values 0..255 in the source;
overflow is taken explicitly modulo 256 where it matters). -/
abbrev Byte := Nat

/-- A byte stream (`brillo::Blob` in the source). -/
abbrev Bytes := List Byte

/-! ## External crypto capability

Modelled from the spec: "KeyReference: opaque handle (e.g., a file path) to
private or public key material; the core never inspects key bytes directly,
only delegates sign/verify operations to the digest/crypto collaborator."
A key pair is an opaque identifier `Nat`; the private key and the public key
of a pair share the identifier, and an "unrelated" public key is one with a
different identifier. -/

/-- Modelled from the spec: the external RSA crypto backend capability
(key-file loading plus the raw RSA transforms of §1/§4.2/§4.3, which are
"treated as a capability the core calls into" and are not under `src/`).
`sign k h` is the raw RSA private-key signing transform of pair `k` over a
padded hash `h` (`none` on an unreadable key or backend error);
`recover k s` is the raw RSA public-key verify transform of pair `k`,
recovering the signed value from a signature `s`; `keySize k` is the
declared size class of pair `k` in bytes (e.g. 256 for RSA-2048), `none`
when the size class cannot be determined. -/
structure CryptoBackend where
  sign : Nat → Bytes → Option Bytes
  recover : Nat → Bytes → Option Bytes
  keySize : Nat → Option Nat

/-! ## Signature blob codec -/

/-- A per-key signature record (`Signatures::Signature` in
`update_metadata.pb.h`): a small integer `version` tag (currently always 1)
and the raw signature bytes (256 bytes for RSA-2048). -/
structure SignatureEntry where
  version : Nat
  data : Bytes
deriving DecidableEq, Repr

/-- Modelled from the spec: per-entry wire framing of the Signature Blob
Codec (the exact on-wire framing is an open implementation choice per §9;
this is a self-describing encoding with a length predictable ahead of
content: a version byte, a two-byte big-endian length of the data, then the
data bytes — 3 bytes of framing overhead per entry). -/
def encodeEntry (e : SignatureEntry) : Bytes :=
  e.version :: e.data.length / 256 :: e.data.length % 256 :: e.data

/-- Modelled from the spec: serialization of an ordered collection of
per-key signature records into a single binary blob (entry order =
key-list order; one leading entry-count byte of container overhead). -/
def encodeSignatures (es : List SignatureEntry) : Bytes :=
  es.length :: es.flatMap encodeEntry

/-- Modelled from the spec: entry-list deserialization — reads `n` framed
entries, returning them with the remaining bytes, or `none` when the bytes
do not decode. -/
def decodeEntries : Nat → Bytes → Option (List SignatureEntry × Bytes)
  | 0, rest => some ([], rest)
  | n + 1, v :: hi :: lo :: rest =>
      let len := hi * 256 + lo
      if len ≤ rest.length then
        match decodeEntries n (rest.drop len) with
        | some (es, r) => some (⟨v, rest.take len⟩ :: es, r)
        | none => none
      else
        none
  | _ + 1, _ => none

/-- Modelled from the spec: blob deserialization of the Signature Blob
Codec (`Signatures::ParseFromArray` on the wire format above); fails
(`MalformedBlob`) when the bytes do not decode exactly. -/
def decodeSignatures (b : Bytes) : Option (List SignatureEntry) :=
  match b with
  | [] => none
  | n :: rest =>
      match decodeEntries n rest with
      | some (es, []) => some es
      | _ => none

/-! ## Hash padder -/

/-- The ASN.1 DigestInfo header identifying SHA-256, as fixed by
PKCS#1 v1.5 for a SHA-256 digest. -/
def sha256DigestInfoHeader : Bytes :=
  [0x30, 0x31, 0x30, 0x0d, 0x06, 0x09, 0x60, 0x86, 0x48, 0x01,
   0x65, 0x03, 0x04, 0x02, 0x01, 0x05, 0x00, 0x04, 0x20]

/-- The fixed 224-byte prefix prepended to a 32-byte digest to reach the
256-byte RSA-2048 modulus size: PKCS#1 v1.5 block framing followed by the
SHA-256 DigestInfo header. -/
def rsa2048Sha256Header : Bytes :=
  0x00 :: 0x01 :: (List.replicate 202 0xff ++ (0x00 :: sha256DigestInfoHeader))

/-- Modelled from the spec: `PayloadVerifier::PadRSA2048SHA256Hash`
(§4.1) — prepends the fixed DigestInfo-style prefix to the 32-byte
digest, yielding a deterministic 256-byte value matching the RSA-2048
modulus size; fails (`InvalidDigestLength`) if the input is not exactly
32 bytes. -/
def PadRSA2048SHA256Hash (digest : Bytes) : Option Bytes :=
  if digest.length = 32 then some (rsa2048Sha256Header ++ digest) else none

/-! ## Signer -/

/-- A hand-rolled `Option.mapM` so that proofs can recurse on the
key list directly: applies `f` to each element in order and collects the
results, failing as soon as any single application fails. -/
def mapOpt (f : α → Option β) : List α → Option (List β)
  | [] => some []
  | a :: as =>
      match f a, mapOpt f as with
      | some b, some bs => some (b :: bs)
      | _, _ => none

/-- Modelled from the spec: `PayloadSigner::SignatureBlobLength` (§4.2) —
the exact serialized byte length the blob would have if each key in order
produced one entry, derived solely from the declared key size class plus
the fixed 3-byte per-entry framing overhead, summed across all keys, plus
the 1-byte container overhead; no cryptographic operation is performed.
Fails when any key reference's size class cannot be determined. -/
def SignatureBlobLength (B : CryptoBackend) (keys : List Nat) : Option Nat :=
  (mapOpt B.keySize keys).map fun sizes => 1 + (sizes.map (3 + ·)).sum

/-- Modelled from the spec: `PayloadSigner::SignHashWithKeys` (§4.2) — for
each key in order, performs the raw RSA private-key signing transform over
the padded hash (the pre-padded value is signed directly) and appends a
`SignatureEntry` with version 1 and the signature as data; all-or-nothing:
if any individual key fails to sign, the whole operation fails and no
partial blob is returned. -/
def SignHashWithKeys (B : CryptoBackend) (paddedHash : Bytes)
    (keys : List Nat) : Option Bytes :=
  (mapOpt (fun k => B.sign k paddedHash) keys).map fun sigs =>
    encodeSignatures (sigs.map fun s => ⟨1, s⟩)

/-! ## Verifier -/

/-- Modelled from the spec: `PayloadVerifier::VerifySignature` (§4.3) —
parses the blob into its entry list (`none`, i.e. `MalformedBlob`, if the
bytes do not decode); for each entry performs the raw RSA public-key verify
transform and compares the recovered value to `expected`; `some true` if
any entry matches, `some false` if no entry matches. -/
def VerifySignature (B : CryptoBackend) (blob : Bytes) (pubKey : Nat)
    (expected : Bytes) : Option Bool :=
  (decodeSignatures blob).map fun entries =>
    entries.any fun e => decide (B.recover pubKey e.data = some expected)

/-! ## Payload container, hashing for signing, payload writer -/

/-- The two digests of §3 computed by `HashPayloadForSigning`:
`payload_hash` over the full container, `metadata_hash` over the metadata
section. -/
structure PayloadHashSet where
  payload_hash : Bytes
  metadata_hash : Bytes
deriving DecidableEq, Repr

/-- A written payload container: its full byte stream together with the
recorded metadata boundary and the recorded offset/length of its trailing
signature region (§6: "header, metadata section, operation stream, optional
trailing SignatureBlob region whose offset/length is recorded"). -/
structure Payload where
  bytes : Bytes
  metadataSize : Nat
  sigOffset : Nat
  sigSize : Nat
deriving DecidableEq, Repr

/-- Whether index `i` falls inside one of the reserved
(offset, length) regions. -/
def inRegions (regions : List (Nat × Nat)) (i : Nat) : Bool :=
  regions.any fun r => decide (r.1 ≤ i) && decide (i < r.1 + r.2)

/-- Modelled from the spec: the substitution pass of
`HashPayloadForSigning` — at each reserved region's offset/length, the
container's bytes are replaced by a fixed placeholder byte pattern (zero)
before hashing, instead of the region's actual current bytes. -/
def substReserved (bytes : Bytes) (regions : List (Nat × Nat)) : Bytes :=
  (List.range bytes.length).map fun i =>
    if inRegions regions i then 0 else bytes.getD i 0

/-- Modelled from the spec: `PayloadSigner::HashPayloadForSigning`
(§4.2) — computes `payload_hash` over the full container and
`metadata_hash` over the container's metadata section, substituting the
placeholder pattern at each reserved region before hashing.  The digest
engine `H` is the external SHA-256 capability. -/
def HashPayloadForSigning (H : Bytes → Bytes) (container : Payload)
    (regions : List (Nat × Nat)) : PayloadHashSet :=
  let b := substReserved container.bytes regions
  ⟨H b, H (b.take container.metadataSize)⟩

/-- The generation configuration established by `PayloadFile::Init`
(version/format parameters; `config.version.major` in the test). -/
structure PayloadGenerationConfig where
  majorVersion : Nat
deriving DecidableEq, Repr

/-- Modelled from the spec: the metadata section (header + manifest)
produced by the Payload Writer for a given configuration and data blob; it
records the version/format parameters, the reserved signature-region size
and the body length, and does not depend on any signing key. -/
def mkMetadata (cfg : PayloadGenerationConfig) (dataBlob : Bytes)
    (reservedSize : Nat) : Bytes :=
  [cfg.majorVersion, reservedSize, dataBlob.length]

/-- Modelled from the spec: the unsigned write of `PayloadFile::WritePayload`
(§4.4) — metadata, then the payload body, then a zero-filled ReservedRegion
of the caller-supplied size, with the metadata boundary and the region's
offset/length recorded. -/
def writeUnsigned (cfg : PayloadGenerationConfig) (dataBlob : Bytes)
    (reservedSize : Nat) : Payload :=
  let m := mkMetadata cfg dataBlob reservedSize
  ⟨m ++ dataBlob ++ List.replicate reservedSize 0,
   m.length, m.length + dataBlob.length, reservedSize⟩

/-- Modelled from the spec: `PayloadFile::WritePayload` (§4.4, §4.5).
With no signing key (`none`) it embeds a zero-filled ReservedRegion of the
caller-supplied size and performs no signing.  With a key it performs an
equivalent write whose ReservedRegion is populated with the real
SignatureBlob: it hashes the placeholder-filled container, pads the payload
hash, signs it with the key, and embeds the resulting blob at the reserved
offset; a blob length differing from the reserved size is a
`LayoutInvariantViolation` and fails the write.  Returns the written
container (whose `metadataSize` field is the returned metadata boundary). -/
def WritePayload (B : CryptoBackend) (H : Bytes → Bytes)
    (cfg : PayloadGenerationConfig) (dataBlob : Bytes)
    (signingKey : Option Nat) (reservedSize : Nat) : Option Payload :=
  let u := writeUnsigned cfg dataBlob reservedSize
  match signingKey with
  | none => some u
  | some k =>
      match PadRSA2048SHA256Hash
          (HashPayloadForSigning H u [(u.sigOffset, u.sigSize)]).payload_hash with
      | none => none
      | some padded =>
          match SignHashWithKeys B padded [k] with
          | none => none
          | some blob =>
              if blob.length = reservedSize then
                some ⟨mkMetadata cfg dataBlob reservedSize ++ dataBlob ++ blob,
                      u.metadataSize, u.sigOffset, reservedSize⟩
              else
                none

/-- Modelled from the spec: `PayloadSigner::VerifySignedPayload` (§4.2) —
locates the embedded SignatureBlob and metadata boundary already written
into the container, recomputes the expected PaddedHash via the hash padder
and digest engine, and delegates to the Verifier; `none` is the distinct
failure for structural problems (blob absent or unparsable), while a
verification mismatch is the boolean `some false`. -/
def VerifySignedPayload (B : CryptoBackend) (H : Bytes → Bytes)
    (p : Payload) (pubKey : Nat) : Option Bool :=
  let blob := (p.bytes.drop p.sigOffset).take p.sigSize
  match decodeSignatures blob with
  | none => none
  | some _ =>
      match PadRSA2048SHA256Hash
          (HashPayloadForSigning H p [(p.sigOffset, p.sigSize)]).payload_hash with
      | none => none
      | some padded => VerifySignature B blob pubKey padded

/-! ## Digest engine (SHA-256)

Modelled from the spec: the external digest engine (§2, "computes a
fixed-size cryptographic hash of an arbitrary byte stream. Consumed, not
re-specified") is SHA-256 per FIPS 180-4, as invoked through
`HashCalculator::RawHashOfBytes` in the test; the implementation is not
under `src/`. -/

/-- Truncation to a 32-bit word. -/
def w32 (x : Nat) : Nat := x % 4294967296

/-- 32-bit right rotation by `n` (for `x < 2^32`). -/
def rotr32 (n x : Nat) : Nat := x / 2 ^ n + x % 2 ^ n * 2 ^ (32 - n)

/-- Big-endian byte serialization of `v` into `n` bytes. -/
def toBytesBE : Nat → Nat → Bytes
  | 0, _ => []
  | n + 1, v => toBytesBE n (v / 256) ++ [v % 256]

/-- Groups a byte stream into big-endian 32-bit words (the stream length is
a multiple of 4 whenever this is used). -/
def bytesToWords : Bytes → List Nat
  | a :: b :: c :: d :: rest => (((a * 256 + b) * 256 + c) * 256 + d) :: bytesToWords rest
  | _ => []

/-- SHA-256 message padding: a 0x80 byte, zeros to 56 mod 64, then the
bit length as 8 big-endian bytes. -/
def sha256Pad (msg : Bytes) : Bytes :=
  msg ++ 0x80 :: List.replicate ((119 - msg.length % 64) % 64) 0
      ++ toBytesBE 8 (8 * msg.length)

/-- The 64 SHA-256 round constants of FIPS 180-4 (decimal). -/
def sha256K : List Nat :=
  [1116352408, 1899447441, 3049323471, 3921009573, 961987163, 1508970993,
   2453635748, 2870763221, 3624381080, 310598401, 607225278, 1426881987,
   1925078388, 2162078206, 2614888103, 3248222580, 3835390401, 4022224774,
   264347078, 604807628, 770255983, 1249150122, 1555081692, 1996064986,
   2554220882, 2821834349, 2952996808, 3210313671, 3336571891, 3584528711,
   113926993, 338241895, 666307205, 773529912, 1294757372, 1396182291,
   1695183700, 1986661051, 2177026350, 2456956037, 2730485921, 2820302411,
   3259730800, 3345764771, 3516065817, 3600352804, 4094571909, 275423344,
   430227734, 506948616, 659060556, 883997877, 958139571, 1322822218,
   1537002063, 1747873779, 1955562222, 2024104815, 2227730452, 2361852424,
   2428436474, 2756734187, 3204031479, 3329325298]

/-- The SHA-256 initial hash value of FIPS 180-4 (decimal). -/
def sha256InitH : List Nat :=
  [1779033703, 3144134277, 1013904242, 2773480762,
   1359893119, 2600822924, 528734635, 1541459225]

/-- The function σ₀ of the SHA-256 message schedule. -/
def schedSigma0 (x : Nat) : Nat := rotr32 7 x ^^^ rotr32 18 x ^^^ x / 2 ^ 3

/-- The function σ₁ of the SHA-256 message schedule. -/
def schedSigma1 (x : Nat) : Nat := rotr32 17 x ^^^ rotr32 19 x ^^^ x / 2 ^ 10

/-- Extends the 16-word block to the 64-word message schedule (`n` more
words appended to `w`). -/
def extendSchedule : Nat → Array Nat → Array Nat
  | 0, w => w
  | n + 1, w =>
      let i := w.size
      extendSchedule n (w.push (w32 (schedSigma1 (w.getD (i - 2) 0) + w.getD (i - 7) 0
        + schedSigma0 (w.getD (i - 15) 0) + w.getD (i - 16) 0)))

/-- One SHA-256 compression round on the working variables
`[a, b, c, d, e, f, g, h]` with round constant `k` and schedule word `w`. -/
def sha256Round (st : List Nat) (k w : Nat) : List Nat :=
  match st with
  | [a, b, c, d, e, f, g, h] =>
      let s1 := rotr32 6 e ^^^ rotr32 11 e ^^^ rotr32 25 e
      let ch := e &&& f ^^^ (4294967295 - e) &&& g
      let t1 := w32 (h + s1 + ch + k + w)
      let s0 := rotr32 2 a ^^^ rotr32 13 a ^^^ rotr32 22 a
      let mj := a &&& b ^^^ a &&& c ^^^ b &&& c
      let t2 := w32 (s0 + mj)
      [w32 (t1 + t2), a, b, c, w32 (d + t1), e, f, g]
  | _ => st

/-- Compresses one 16-word block into the running hash state. -/
def sha256Compress (h : List Nat) (block : List Nat) : List Nat :=
  let w := (extendSchedule 48 block.toArray).toList
  let st := (sha256K.zip w).foldl (fun s p => sha256Round s p.1 p.2) h
  (h.zip st).map fun p => w32 (p.1 + p.2)

/-- Splits a padded message into 16-word blocks (fuel = number of
64-byte blocks). -/
def splitBlocks : Nat → Bytes → List (List Nat)
  | 0, _ => []
  | n + 1, b => bytesToWords (b.take 64) :: splitBlocks n (b.drop 64)

/-- SHA-256 of a byte stream (FIPS 180-4), as a 32-byte digest. -/
def sha256 (msg : Bytes) : Bytes :=
  let p := sha256Pad msg
  ((splitBlocks (p.length / 64) p).foldl sha256Compress sha256InitH).flatMap
    (toBytesBE 4)

/-! ## Golden vectors of the unit test -/

/-- The fixed input of the test: `kDataToSign` = "This is some data to
sign." as bytes. -/
def kDataToSign : Bytes := "This is some data to sign.".toList.map Char.toNat

/-- The fixed known 32-byte SHA-256 digest of `kDataToSign`
(`kDataHash` in the test). -/
def kDataHash : Bytes :=
  [0x7a, 0x07, 0xa6, 0x44, 0x08, 0x86, 0x20, 0xa6,
   0xc1, 0xf8, 0xd9, 0x02, 0x05, 0x63, 0x0d, 0xb7,
   0xfc, 0x2b, 0xa0, 0xa9, 0x7c, 0x9d, 0x1d, 0x8c,
   0x01, 0xf5, 0x78, 0x6d, 0xc5, 0x11, 0xb4, 0x06]

/-- The fixed known 256-byte RSA-2048 signature of the padded digest under
the test key `unittest_key.pem` (`kDataSignature` in the test). -/
def kDataSignature : Bytes :=
  [0x9f, 0x86, 0x25, 0x8b, 0xf3, 0xcc, 0xe3, 0x95,
   0x5f, 0x45, 0x83, 0xb2, 0x66, 0xf0, 0x2a, 0xcf,
   0xb7, 0xaa, 0x52, 0x25, 0x7a, 0xdd, 0x9d, 0x65,
   0xe5, 0xd6, 0x02, 0x4b, 0x37, 0x99, 0x53, 0x06,
   0xc2, 0xc9, 0x37, 0x36, 0x25, 0x62, 0x09, 0x4f,
   0x6b, 0x22, 0xf8, 0xb3, 0x89, 0x14, 0x98, 0x1a,
   0xbc, 0x30, 0x90, 0x4a, 0x43, 0xf5, 0xea, 0x2e,
   0xf0, 0xa4, 0xba, 0xc3, 0xa7, 0xa3, 0x44, 0x70,
   0xd6, 0xc4, 0x89, 0xd8, 0x45, 0x71, 0xbb, 0xee,
   0x59, 0x87, 0x3d, 0xd5, 0xe5, 0x40, 0x22, 0x3d,
   0x73, 0x7e, 0x2a, 0x58, 0x93, 0x8e, 0xcb, 0x9c,
   0xf2, 0xbb, 0x4a, 0xc9, 0xd2, 0x2c, 0x52, 0x42,
   0xb0, 0xd1, 0x13, 0x22, 0xa4, 0x78, 0xc7, 0xc6,
   0x3e, 0xf1, 0xdc, 0x4c, 0x7b, 0x2d, 0x40, 0xda,
   0x58, 0xac, 0x4a, 0x11, 0x96, 0x3d, 0xa0, 0x01,
   0xf6, 0x96, 0x74, 0xf6, 0x6c, 0x0c, 0x49, 0x69,
   0x4e, 0xc1, 0x7e, 0x9f, 0x2a, 0x42, 0xdd, 0x15,
   0x6b, 0x37, 0x2e, 0x3a, 0xa7, 0xa7, 0x6d, 0x91,
   0x13, 0xe8, 0x59, 0xde, 0xfe, 0x99, 0x07, 0xd9,
   0x34, 0x0f, 0x17, 0xb3, 0x05, 0x4c, 0xd2, 0xc6,
   0x82, 0xb7, 0x38, 0x36, 0x63, 0x1d, 0x9e, 0x21,
   0xa6, 0x32, 0xef, 0xf1, 0x65, 0xe6, 0xed, 0x95,
   0x25, 0x9b, 0x61, 0xe0, 0xba, 0x86, 0xa1, 0x7f,
   0xf8, 0xa5, 0x4a, 0x32, 0x1f, 0x15, 0x20, 0x8a,
   0x41, 0xc5, 0xb0, 0xd9, 0x4a, 0xda, 0x85, 0xf3,
   0xdc, 0xa0, 0x98, 0x5d, 0x1d, 0x18, 0x9d, 0x2e,
   0x42, 0xea, 0x69, 0x13, 0x74, 0x3c, 0x74, 0xf7,
   0x6d, 0x43, 0xb0, 0x63, 0x90, 0xdb, 0x04, 0xd5,
   0x05, 0xc9, 0x73, 0x1f, 0x6c, 0xd6, 0xfa, 0x46,
   0x4e, 0x0f, 0x33, 0x58, 0x5b, 0x0d, 0x1b, 0x55,
   0x39, 0xb9, 0x0f, 0x43, 0x37, 0xc0, 0x06, 0x0c,
   0x29, 0x93, 0x43, 0xc7, 0x43, 0xb9, 0xab, 0x7d]

/-! ## Concrete artifacts for exhibiting runs -/

/-- A concrete toy crypto backend used to exhibit concrete runs of the
core (the spec fixes no concrete backend: RSA is an external capability).
Signing with pair `k` prepends `k` to the signed value; recovery strips it
when the pair identifier matches; every key has size class 257 (the length
the toy signature has for a 256-byte padded hash). -/
def toyBackend : CryptoBackend where
  sign k h := some (k :: h)
  recover k s :=
    match s with
    | k' :: h => if k' = k then some h else none
    | [] => none
  keySize _ := some 257

/-- A toy backend whose key 0 is unreadable (its signing fails). -/
def failBackend : CryptoBackend where
  sign k h := if k = 0 then none else some (k :: h)
  recover _ _ := none
  keySize _ := some 257

/-! ## Codec lemmas -/

theorem encodeEntry_length (e : SignatureEntry) :
    (encodeEntry e).length = 3 + e.data.length := by
  simp [encodeEntry]; omega

theorem encodeSignatures_length (es : List SignatureEntry) :
    (encodeSignatures es).length = 1 + (es.map fun e => 3 + e.data.length).sum := by
  induction es with
  | nil => rfl
  | cons e es ih =>
      simp only [encodeSignatures, List.flatMap_cons, List.length_cons,
        List.length_append, List.map_cons, List.sum_cons] at ih ⊢
      rw [encodeEntry_length]
      omega

theorem decodeEntries_encode (es : List SignatureEntry) (r : Bytes) :
    decodeEntries es.length (es.flatMap encodeEntry ++ r) = some (es, r) := by
  induction es generalizing r with
  | nil => rfl
  | cons e es ih =>
      have hlen : e.data.length / 256 * 256 + e.data.length % 256 = e.data.length := by
        omega
      have h1 : (e :: es).flatMap encodeEntry ++ r
          = e.version :: e.data.length / 256 :: e.data.length % 256
            :: (e.data ++ (es.flatMap encodeEntry ++ r)) := by
        simp [encodeEntry]
      rw [h1, List.length_cons]
      simp only [decodeEntries, hlen]
      rw [if_pos (by simp)]
      rw [List.take_left, List.drop_left, ih]

theorem decodeSignatures_encode (es : List SignatureEntry) :
    decodeSignatures (encodeSignatures es) = some es := by
  have h := decodeEntries_encode es []
  rw [List.append_nil] at h
  simp [decodeSignatures, encodeSignatures, h]

/-! ## `mapOpt` lemmas -/

theorem mapOpt_eq_none_of_mem {f : α → Option β} {l : List α} {a : α}
    (ha : a ∈ l) (hn : f a = none) : mapOpt f l = none := by
  induction l with
  | nil => cases ha
  | cons x xs ih =>
      rcases List.mem_cons.mp ha with h | h
      · subst h; simp [mapOpt, hn]
      · simp only [mapOpt, ih h]
        cases f x <;> rfl

theorem mapOpt_cons_inv {f : α → Option β} {x : α} {xs : List α} {bs : List β}
    (h : mapOpt f (x :: xs) = some bs) :
    ∃ b bs', f x = some b ∧ mapOpt f xs = some bs' ∧ bs = b :: bs' := by
  cases hx : f x with
  | none => simp [mapOpt, hx] at h
  | some b =>
      cases hxs : mapOpt f xs with
      | none => simp [mapOpt, hx, hxs] at h
      | some bs' =>
          refine ⟨b, bs', rfl, rfl, ?_⟩
          simp [mapOpt, hx, hxs] at h
          exact h.symm

theorem mapOpt_length {f : α → Option β} {l : List α} {bs : List β}
    (h : mapOpt f l = some bs) : bs.length = l.length := by
  induction l generalizing bs with
  | nil => simp [mapOpt] at h; simp [← h]
  | cons x xs ih =>
      obtain ⟨b, bs', _, hxs, rfl⟩ := mapOpt_cons_inv h
      simp [ih hxs]

theorem mapOpt_isSome {f : α → Option β} {l : List α}
    (h : ∀ a ∈ l, (f a).isSome) : ∃ bs, mapOpt f l = some bs := by
  induction l with
  | nil => exact ⟨[], rfl⟩
  | cons x xs ih =>
      obtain ⟨bs, hbs⟩ := ih fun a ha => h a (List.mem_cons_of_mem x ha)
      obtain ⟨b, hb⟩ := Option.isSome_iff_exists.mp (h x (List.mem_cons_self x xs))
      exact ⟨b :: bs, by simp [mapOpt, hb, hbs]⟩

/-! ## Substitution-pass lemmas -/

/-- The substitution pass hides the content of a reserved region: two
containers that share a prefix and then differ only inside a reserved
region of equal length substitute to the same byte stream. -/
theorem substReserved_region_content_irrelevant (pre x y : Bytes) (n : Nat)
    (hx : x.length = n) (hy : y.length = n) :
    substReserved (pre ++ x) [(pre.length, n)]
      = substReserved (pre ++ y) [(pre.length, n)] := by
  unfold substReserved
  have hl : (pre ++ x).length = (pre ++ y).length := by simp [hx, hy]
  rw [hl]
  refine List.map_congr_left fun i hi => ?_
  have hi' : i < pre.length + n := by
    have := List.mem_range.mp hi
    simpa [hy] using this
  by_cases hreg : inRegions [(pre.length, n)] i = true
  · simp [hreg]
  · have hlt : i < pre.length := by
      simp only [inRegions, List.any_cons, List.any_nil, Bool.or_false,
        Bool.and_eq_true, decide_eq_true_eq] at hreg
      omega
    simp only [hreg, if_false]
    rw [List.getD_append pre x 0 i hlt, List.getD_append pre y 0 i hlt]

/-! ## Signer inversion lemmas -/

/-- Inversion of a successful one-key signing: the key signed and the blob
is the encoding of the single version-1 entry. -/
theorem signHashWithKeys_single_inv {B : CryptoBackend} {h : Bytes} {k : Nat}
    {blob : Bytes} (hb : SignHashWithKeys B h [k] = some blob) :
    ∃ s, B.sign k h = some s ∧ blob = encodeSignatures [⟨1, s⟩] := by
  unfold SignHashWithKeys at hb
  cases hs : B.sign k h with
  | none => simp [mapOpt, hs] at hb
  | some s =>
      refine ⟨s, rfl, ?_⟩
      simp [mapOpt, hs] at hb
      exact hb.symm

/-- Inversion of a successful two-key signing: both keys signed and the
blob encodes the two version-1 entries in key-list order. -/
theorem signHashWithKeys_pair_inv {B : CryptoBackend} {h : Bytes} {k₁ k₂ : Nat}
    {blob : Bytes} (hb : SignHashWithKeys B h [k₁, k₂] = some blob) :
    ∃ s₁ s₂, B.sign k₁ h = some s₁ ∧ B.sign k₂ h = some s₂
      ∧ blob = encodeSignatures [⟨1, s₁⟩, ⟨1, s₂⟩] := by
  unfold SignHashWithKeys at hb
  cases hs₁ : B.sign k₁ h with
  | none => simp [mapOpt, hs₁] at hb
  | some s₁ =>
      cases hs₂ : B.sign k₂ h with
      | none => simp [mapOpt, hs₁, hs₂] at hb
      | some s₂ =>
          refine ⟨s₁, s₂, rfl, rfl, ?_⟩
          simp [mapOpt, hs₁, hs₂] at hb
          exact hb.symm

/-- Inversion of a successful signed write: it went through the unsigned
layout, padded its placeholder payload hash, signed it, and embedded a blob
of exactly the reserved size at the recorded offset. -/
theorem writePayload_signed_inv {B : CryptoBackend} {H : Bytes → Bytes}
    {cfg : PayloadGenerationConfig} {d : Bytes} {k : Nat} {rsize : Nat}
    {p : Payload} (hw : WritePayload B H cfg d (some k) rsize = some p) :
    ∃ padded blob,
      PadRSA2048SHA256Hash
        (HashPayloadForSigning H (writeUnsigned cfg d rsize)
          [((writeUnsigned cfg d rsize).sigOffset,
            (writeUnsigned cfg d rsize).sigSize)]).payload_hash = some padded
      ∧ SignHashWithKeys B padded [k] = some blob
      ∧ blob.length = rsize
      ∧ p = ⟨mkMetadata cfg d rsize ++ d ++ blob,
             (mkMetadata cfg d rsize).length,
             (mkMetadata cfg d rsize).length + d.length, rsize⟩ := by
  simp only [WritePayload] at hw
  split at hw
  · exact absurd hw (by simp)
  · rename_i padded hpad
    split at hw
    · exact absurd hw (by simp)
    · rename_i blob hsig
      split at hw
      · rename_i hbl
        injection hw with hw
        exact ⟨padded, blob, hpad, hsig, hbl, by simp [← hw, writeUnsigned]⟩
      · exact absurd hw (by simp)

/-- When both the size-class query and the signing of every key succeed,
and each signature has its key's declared length, the produced signature
lengths are exactly the declared size classes. -/
theorem mapOpt_sign_lengths {B : CryptoBackend} {h : Bytes} {keys : List Nat}
    {szs : List Nat} {sigs : List Bytes}
    (h1 : mapOpt B.keySize keys = some szs)
    (h2 : mapOpt (fun k => B.sign k h) keys = some sigs)
    (hlen : ∀ k ∈ keys, ∀ sz sig, B.keySize k = some sz →
      B.sign k h = some sig → sig.length = sz) :
    sigs.map List.length = szs := by
  induction keys generalizing szs sigs with
  | nil =>
      simp only [mapOpt, Option.some.injEq] at h1 h2
      simp [← h1, ← h2]
  | cons x xs ih =>
      obtain ⟨sz, szs', hx, hxs, rfl⟩ := mapOpt_cons_inv h1
      obtain ⟨sig, sigs', hx2, hxs2, rfl⟩ := mapOpt_cons_inv h2
      have hrest := ih hxs hxs2 fun k hk => hlen k (List.mem_cons_of_mem x hk)
      simp [hlen x (List.mem_cons_self x xs) sz sig hx hx2, hrest]

/-- C2: for every non-empty key list whose size classes can be determined,
the length returned by `SignatureBlobLength` equals exactly the byte length
of the blob returned by `SignHashWithKeys` for that same key list, and the
length is computed without performing any cryptographic operation: it
depends only on the backend's declared key size classes. -/
theorem signatureBlobLength_matches_blob (B : CryptoBackend) (h : Bytes)
    (keys : List Nat) (len : Nat) (blob : Bytes)
    (hne : keys ≠ [])
    (hlen : ∀ k ∈ keys, ∀ sz sig, B.keySize k = some sz →
      B.sign k h = some sig → sig.length = sz)
    (h1 : SignatureBlobLength B keys = some len)
    (h2 : SignHashWithKeys B h keys = some blob) :
    blob.length = len ∧
      ∀ B' : CryptoBackend, B'.keySize = B.keySize →
        SignatureBlobLength B' keys = SignatureBlobLength B keys := by
  refine ⟨?_, fun B' hB' => by unfold SignatureBlobLength; rw [hB']⟩
  unfold SignatureBlobLength at h1
  unfold SignHashWithKeys at h2
  cases hsz : mapOpt B.keySize keys with
  | none => rw [hsz] at h1; simp at h1
  | some szs =>
      rw [hsz] at h1
      cases hsg : mapOpt (fun k => B.sign k h) keys with
      | none => rw [hsg] at h2; simp at h2
      | some sigs =>
          rw [hsg] at h2
          simp only [Option.map_some', Option.some.injEq] at h1 h2
          rw [← h2, ← h1, encodeSignatures_length]
          have hs := mapOpt_sign_lengths hsz hsg hlen
          simp only [List.map_map, ← hs]
          rfl

/-- The padded form of the all-zero digest, a concrete 256-byte padded
hash used to exhibit concrete signing runs. -/
def paddedZeroHash : Bytes := rsa2048Sha256Header ++ List.replicate 32 0

/-- C2 witness: with the toy backend and two keys, the predicted length
521 = 1 + 2 * (3 + 257) is exactly the emitted blob length. -/
theorem signatureBlobLength_matches_blob_check :
    ((SignHashWithKeys toyBackend paddedZeroHash [1, 2]).getD []).length = 521 :=
  (signatureBlobLength_matches_blob toyBackend paddedZeroHash [1, 2] 521
    ((SignHashWithKeys toyBackend paddedZeroHash [1, 2]).getD [])
    (by decide)
    (by
      intro k hk sz sig hsz hsig
      simp only [toyBackend] at hsz hsig
      injection hsz with hsz
      injection hsig with hsig
      subst hsz
      subst hsig
      simp [List.length_cons]
      decide)
    (by decide) (by decide)).1

/-- C8: `SignHashWithKeys` is all-or-nothing — if any individual key fails
to sign, the whole operation fails and returns no partial blob; and when a
blob is returned it decodes to exactly one version-1 entry per key, in key
list order. -/
theorem signHashWithKeys_all_or_nothing (B : CryptoBackend) (h : Bytes)
    (keys : List Nat) :
    (∀ k ∈ keys, B.sign k h = none → SignHashWithKeys B h keys = none) ∧
    ∀ blob sigs, mapOpt (fun k => B.sign k h) keys = some sigs →
      SignHashWithKeys B h keys = some blob →
      sigs.length = keys.length ∧
        decodeSignatures blob = some (sigs.map fun s => ⟨1, s⟩) := by
  constructor
  · intro k hk hn
    unfold SignHashWithKeys
    rw [mapOpt_eq_none_of_mem hk hn]
    rfl
  · intro blob sigs hsigs hblob
    unfold SignHashWithKeys at hblob
    rw [hsigs] at hblob
    simp only [Option.map_some', Option.some.injEq] at hblob
    exact ⟨mapOpt_length hsigs, by rw [← hblob, decodeSignatures_encode]⟩

/-- C8 witness: with a backend whose key 0 is unreadable, signing with
keys [0, 1] fails outright; with the toy backend and keys [1, 2], the blob
decodes to one version-1 entry per key in order. -/
theorem signHashWithKeys_all_or_nothing_check :
    SignHashWithKeys failBackend paddedZeroHash [0, 1] = none ∧
    ([1 :: paddedZeroHash, 2 :: paddedZeroHash].length = [1, 2].length ∧
      decodeSignatures ((SignHashWithKeys toyBackend paddedZeroHash [1, 2]).getD [])
        = some ([1 :: paddedZeroHash, 2 :: paddedZeroHash].map fun s => ⟨1, s⟩)) :=
  ⟨(signHashWithKeys_all_or_nothing failBackend paddedZeroHash [0, 1]).1
      0 (by decide) (by decide),
    (signHashWithKeys_all_or_nothing toyBackend paddedZeroHash [1, 2]).2
      ((SignHashWithKeys toyBackend paddedZeroHash [1, 2]).getD [])
      [1 :: paddedZeroHash, 2 :: paddedZeroHash] (by decide) (by decide)⟩

/-- C9: the blob emitted by a one-key signing round-trips through the wire
codec — it parses back to exactly one entry (one per supplied key), from
which the original version 1 and the signature data are recovered. -/
theorem signatureBlob_roundtrip_single (B : CryptoBackend) (h : Bytes)
    (k : Nat) (s blob : Bytes)
    (hs : B.sign k h = some s)
    (hb : SignHashWithKeys B h [k] = some blob) :
    decodeSignatures blob = some [⟨1, s⟩] := by
  obtain ⟨s', hs', hblob⟩ := signHashWithKeys_single_inv hb
  rw [hs] at hs'
  injection hs' with hs'
  rw [hblob, ← hs', decodeSignatures_encode]

/-- C9 witness: a concrete one-key signing run whose blob parses back to
its single version-1 entry. -/
theorem signatureBlob_roundtrip_single_check :
    decodeSignatures ((SignHashWithKeys toyBackend paddedZeroHash [3]).getD [])
      = some [⟨1, 3 :: paddedZeroHash⟩] :=
  signatureBlob_roundtrip_single toyBackend paddedZeroHash 3
    (3 :: paddedZeroHash)
    ((SignHashWithKeys toyBackend paddedZeroHash [3]).getD [])
    (by decide) (by decide)

/-- C10: for every non-empty key list whose size classes can all be
determined, `SignatureBlobLength` succeeds and the reported length is
strictly positive. -/
theorem signatureBlobLength_succeeds_pos (B : CryptoBackend)
    (keys : List Nat) (hne : keys ≠ [])
    (hsz : ∀ k ∈ keys, (B.keySize k).isSome) :
    (SignatureBlobLength B keys).isSome ∧
      ∀ len, SignatureBlobLength B keys = some len → 0 < len := by
  obtain ⟨szs, hszs⟩ := mapOpt_isSome hsz
  constructor
  · simp [SignatureBlobLength, hszs]
  · intro len hlen
    unfold SignatureBlobLength at hlen
    rw [hszs] at hlen
    simp only [Option.map_some', Option.some.injEq] at hlen
    omega

/-- C10 witness: with the toy backend and two keys the prediction succeeds
and the predicted length 521 is positive. -/
theorem signatureBlobLength_succeeds_pos_check :
    (SignatureBlobLength toyBackend [1, 2]).isSome ∧ 0 < 521 :=
  ⟨(signatureBlobLength_succeeds_pos toyBackend [1, 2] (by decide) (by decide)).1,
    (signatureBlobLength_succeeds_pos toyBackend [1, 2] (by decide) (by decide)).2
      521 (by decide)⟩

/-- C3: a blob produced by `SignHashWithKeys` over two distinct private
keys verifies (`some true`) against the public counterpart of either key
independently — any contained entry validating against the supplied public
key suffices. -/
theorem verifySignature_either_of_two_keys (B : CryptoBackend) (h : Bytes)
    (k₁ k₂ : Nat) (s₁ s₂ blob : Bytes)
    (hk : k₁ ≠ k₂)
    (hs1 : B.sign k₁ h = some s₁) (hs2 : B.sign k₂ h = some s₂)
    (hr1 : B.recover k₁ s₁ = some h) (hr2 : B.recover k₂ s₂ = some h)
    (hblob : SignHashWithKeys B h [k₁, k₂] = some blob) :
    VerifySignature B blob k₁ h = some true
      ∧ VerifySignature B blob k₂ h = some true := by
  obtain ⟨t₁, t₂, ht1, ht2, rfl⟩ := signHashWithKeys_pair_inv hblob
  rw [hs1] at ht1
  injection ht1 with ht1
  rw [hs2] at ht2
  injection ht2 with ht2
  subst ht1
  subst ht2
  unfold VerifySignature
  rw [decodeSignatures_encode]
  simp [hr1, hr2]

/-- C3 witness: a concrete two-key toy signing whose blob verifies against
either key. -/
theorem verifySignature_either_of_two_keys_check :
    VerifySignature toyBackend
      ((SignHashWithKeys toyBackend paddedZeroHash [1, 2]).getD [])
      1 paddedZeroHash = some true
    ∧ VerifySignature toyBackend
        ((SignHashWithKeys toyBackend paddedZeroHash [1, 2]).getD [])
        2 paddedZeroHash = some true :=
  verifySignature_either_of_two_keys toyBackend paddedZeroHash 1 2
    (1 :: paddedZeroHash) (2 :: paddedZeroHash)
    ((SignHashWithKeys toyBackend paddedZeroHash [1, 2]).getD [])
    (by decide) (by decide) (by decide) (by decide) (by decide) (by decide)

/-- C4: a well-formed blob signed with only key 1 verifies `some false`
against key 2's public counterpart — a plain boolean negative outcome, not
a failure — while verifying `some true` against key 1's own public
counterpart. -/
theorem verifySignature_wrong_key_false (B : CryptoBackend) (h : Bytes)
    (k₁ k₂ : Nat) (s₁ blob : Bytes)
    (hs1 : B.sign k₁ h = some s₁)
    (hr1 : B.recover k₁ s₁ = some h)
    (hwrong : B.recover k₂ s₁ ≠ some h)
    (hblob : SignHashWithKeys B h [k₁] = some blob) :
    VerifySignature B blob k₁ h = some true
      ∧ VerifySignature B blob k₂ h = some false := by
  obtain ⟨t, ht, rfl⟩ := signHashWithKeys_single_inv hblob
  rw [hs1] at ht
  injection ht with ht
  subst ht
  unfold VerifySignature
  rw [decodeSignatures_encode]
  simp [hr1, hwrong]

/-- C4 witness: a concrete one-key toy signing whose blob verifies against
key 1 and is reported `some false` against key 2. -/
theorem verifySignature_wrong_key_false_check :
    VerifySignature toyBackend
      ((SignHashWithKeys toyBackend paddedZeroHash [1]).getD [])
      1 paddedZeroHash = some true
    ∧ VerifySignature toyBackend
        ((SignHashWithKeys toyBackend paddedZeroHash [1]).getD [])
        2 paddedZeroHash = some false :=
  verifySignature_wrong_key_false toyBackend paddedZeroHash 1 2
    (1 :: paddedZeroHash)
    ((SignHashWithKeys toyBackend paddedZeroHash [1]).getD [])
    (by decide) (by decide) (by decide) (by decide)

/-- C5: for the same generation configuration, the metadata boundary
returned by the unsigned pass of `WritePayload` equals the one returned by
the signed pass — the metadata/payload-body boundary is unchanged. -/
theorem writePayload_metadataSize_stable (B : CryptoBackend)
    (H : Bytes → Bytes) (cfg : PayloadGenerationConfig) (d : Bytes)
    (k rsize : Nat) (p₁ p₂ : Payload)
    (h1 : WritePayload B H cfg d none rsize = some p₁)
    (h2 : WritePayload B H cfg d (some k) rsize = some p₂) :
    p₁.metadataSize = p₂.metadataSize := by
  obtain ⟨padded, blob, _, _, _, rfl⟩ := writePayload_signed_inv h2
  simp only [WritePayload] at h1
  injection h1 with h1
  rw [← h1]
  simp [writeUnsigned]

/-- C1: the `PayloadHashSet` computed by `HashPayloadForSigning` over the
container written unsigned (zero-filled reserved region) equals, in both
its `payload_hash` and `metadata_hash` components, the one computed over
the same container rewritten signed with a real key — the hashes are
independent of whether the reserved region holds placeholder bytes or a
genuine blob of the same length. -/
theorem hashForSigning_placeholder_signed_agree (B : CryptoBackend)
    (H : Bytes → Bytes) (cfg : PayloadGenerationConfig) (d : Bytes)
    (k rsize : Nat) (p₁ p₂ : Payload)
    (h1 : WritePayload B H cfg d none rsize = some p₁)
    (h2 : WritePayload B H cfg d (some k) rsize = some p₂) :
    HashPayloadForSigning H p₁ [(p₁.sigOffset, p₁.sigSize)]
      = HashPayloadForSigning H p₂ [(p₂.sigOffset, p₂.sigSize)] := by
  obtain ⟨padded, blob, hpad, hsig, hbl, rfl⟩ := writePayload_signed_inv h2
  simp only [WritePayload] at h1
  injection h1 with h1
  rw [← h1]
  unfold HashPayloadForSigning
  have hoff : (mkMetadata cfg d rsize).length + d.length
      = (mkMetadata cfg d rsize ++ d).length := (List.length_append _ _).symm
  simp only [writeUnsigned, hoff]
  rw [substReserved_region_content_irrelevant (mkMetadata cfg d rsize ++ d)
    (List.replicate rsize 0) blob rsize (by simp) hbl]

/-! ## Concrete payload runs for the writer claims -/

/-- A concrete generation configuration (Brillo major payload version 2,
as in the test's `config.version.major = kBrilloMajorPayloadVersion`). -/
def cfg0 : PayloadGenerationConfig := ⟨2⟩

/-- A concrete payload body. -/
def dataBlob0 : Bytes := [7, 8, 9]

/-- The container written by the unsigned pass for `cfg0`/`dataBlob0`
with a 261-byte reserved region (261 = 1 + 3 + 257, the blob length the
toy backend emits for one key). -/
def payloadU0 : Payload := writeUnsigned cfg0 dataBlob0 261

/-- The container written by the signed pass for the same configuration,
with the toy backend, SHA-256 as digest engine, and key pair 5. -/
def payloadS0 : Payload :=
  (WritePayload toyBackend sha256 cfg0 dataBlob0 (some 5) 261).getD ⟨[], 0, 0, 0⟩

/-- C5 witness: the concrete unsigned and signed passes return the same
metadata boundary. -/
theorem writePayload_metadataSize_stable_check :
    payloadU0.metadataSize = payloadS0.metadataSize :=
  writePayload_metadataSize_stable toyBackend sha256 cfg0 dataBlob0 5 261
    payloadU0 payloadS0 rfl (by decide)

/-- C1 witness: the concrete unsigned and signed containers hash to the
same `PayloadHashSet`. -/
theorem hashForSigning_placeholder_signed_agree_check :
    HashPayloadForSigning sha256 payloadU0 [(payloadU0.sigOffset, payloadU0.sigSize)]
      = HashPayloadForSigning sha256 payloadS0 [(payloadS0.sigOffset, payloadS0.sigSize)] :=
  hashForSigning_placeholder_signed_agree toyBackend sha256 cfg0 dataBlob0 5 261
    payloadU0 payloadS0 rfl (by decide)

/-- C7: a payload written and signed with a given private key passes
`VerifySignedPayload` against that key's paired public key, and the same
signed payload is rejected (`some false`) against an unrelated public
key. -/
theorem verifySignedPayload_paired_key (B : CryptoBackend) (H : Bytes → Bytes)
    (cfg : PayloadGenerationConfig) (d : Bytes) (k k₂ rsize : Nat)
    (p : Payload) (padded s : Bytes)
    (hk : k ≠ k₂)
    (hw : WritePayload B H cfg d (some k) rsize = some p)
    (hpad : PadRSA2048SHA256Hash
      (HashPayloadForSigning H (writeUnsigned cfg d rsize)
        [((writeUnsigned cfg d rsize).sigOffset,
          (writeUnsigned cfg d rsize).sigSize)]).payload_hash = some padded)
    (hsig : B.sign k padded = some s)
    (hrec : B.recover k s = some padded)
    (hwrong : B.recover k₂ s ≠ some padded) :
    VerifySignedPayload B H p k = some true
      ∧ VerifySignedPayload B H p k₂ = some false := by
  obtain ⟨padded', blob, hpad', hsig', hbl, rfl⟩ := writePayload_signed_inv hw
  rw [hpad] at hpad'
  injection hpad' with hpad'
  subst hpad'
  obtain ⟨s', hs', hblob⟩ := signHashWithKeys_single_inv hsig'
  rw [hsig] at hs'
  injection hs' with hs'
  subst hs'
  subst hblob
  have hoff : (mkMetadata cfg d rsize).length + d.length
      = (mkMetadata cfg d rsize ++ d).length := (List.length_append _ _).symm
  have hextract : ((mkMetadata cfg d rsize ++ d ++ encodeSignatures [⟨1, s⟩]).drop
      ((mkMetadata cfg d rsize).length + d.length)).take rsize
      = encodeSignatures [⟨1, s⟩] := by
    rw [hoff, List.drop_left, ← hbl, List.take_length]
  have hhs : HashPayloadForSigning H
      ⟨mkMetadata cfg d rsize ++ d ++ encodeSignatures [⟨1, s⟩],
       (mkMetadata cfg d rsize).length,
       (mkMetadata cfg d rsize).length + d.length, rsize⟩
      [((mkMetadata cfg d rsize).length + d.length, rsize)]
      = HashPayloadForSigning H (writeUnsigned cfg d rsize)
        [((writeUnsigned cfg d rsize).sigOffset,
          (writeUnsigned cfg d rsize).sigSize)] := by
    unfold HashPayloadForSigning
    simp only [writeUnsigned, hoff]
    rw [substReserved_region_content_irrelevant (mkMetadata cfg d rsize ++ d)
      (encodeSignatures [⟨1, s⟩]) (List.replicate rsize 0) rsize hbl (by simp)]
  constructor
  · simp only [VerifySignedPayload, hextract, decodeSignatures_encode, hhs, hpad,
      VerifySignature]
    simp [hrec]
  · simp only [VerifySignedPayload, hextract, decodeSignatures_encode, hhs, hpad,
      VerifySignature]
    simp [hwrong]

/-- The padded payload hash of the concrete unsigned container
`payloadU0`. -/
def padded0 : Bytes :=
  (PadRSA2048SHA256Hash (HashPayloadForSigning sha256 payloadU0
    [(payloadU0.sigOffset, payloadU0.sigSize)]).payload_hash).getD []

/-- C7 witness: the concrete signed container verifies against its own key
pair 5 and is rejected against the unrelated pair 7. -/
theorem verifySignedPayload_paired_key_check :
    VerifySignedPayload toyBackend sha256 payloadS0 5 = some true
      ∧ VerifySignedPayload toyBackend sha256 payloadS0 7 = some false :=
  verifySignedPayload_paired_key toyBackend sha256 cfg0 dataBlob0 5 7 261
    payloadS0 padded0 (5 :: padded0)
    (by decide) (by decide) (by decide) (by decide) (by decide) (by decide)

/-- C6: the SHA-256 digest of "This is some data to sign." equals the
fixed golden 32-byte value; the golden signature is exactly 256 bytes; and
signing the padded form of that digest with a key whose raw RSA transform
yields the golden signature produces a blob holding exactly one
version-1 entry whose data is the golden signature. -/
theorem signSimpleText_golden_vectors :
    sha256 kDataToSign = kDataHash ∧
    kDataSignature.length = 256 ∧
    ∀ (B : CryptoBackend) (k : Nat) (padded : Bytes),
      PadRSA2048SHA256Hash (sha256 kDataToSign) = some padded →
      B.sign k padded = some kDataSignature →
      SignHashWithKeys B padded [k]
        = some (encodeSignatures [⟨1, kDataSignature⟩]) ∧
      decodeSignatures (encodeSignatures [⟨1, kDataSignature⟩])
        = some [⟨1, kDataSignature⟩] := by
  refine ⟨by decide, by decide, ?_⟩
  intro B k padded hpad hsig
  refine ⟨?_, decodeSignatures_encode _⟩
  unfold SignHashWithKeys
  simp [mapOpt, hsig]

/-- Modelled from the spec: a backend whose raw RSA signing transform
reproduces the golden signature, standing in for the external OpenSSL
backend loaded with `unittest_key.pem` (absent from the repository). -/
def goldenBackend : CryptoBackend where
  sign _ _ := some kDataSignature
  recover _ _ := none
  keySize _ := some 256

/-- The golden padded hash: the fixed prefix followed by the golden
digest. -/
def goldenPadded : Bytes := rsa2048Sha256Header ++ kDataHash

/-- C6 witness: with the golden backend, signing the padded golden digest
emits the blob of the single golden version-1 entry, and that blob parses
back to it. -/
theorem signSimpleText_golden_vectors_check :
    SignHashWithKeys goldenBackend goldenPadded [1]
      = some (encodeSignatures [⟨1, kDataSignature⟩])
    ∧ decodeSignatures (encodeSignatures [⟨1, kDataSignature⟩])
      = some [⟨1, kDataSignature⟩] :=
  signSimpleText_golden_vectors.2.2 goldenBackend 1 goldenPadded
    (by decide) (by decide)

end UpdateEngine
